import Mathlib

/-!
Verification of the scep2acme bridge core against its specification.

Shallow embedding of the Go sources:
* `internal/whitelist/whitelist.go` — the CSR password/hostname whitelist verifier;
* `internal/scep` (ServiceWithoutRenewal, Depot) — capability filter, chain/key loaders;
* `internal/acme/acme.go` — the ACME certificate source.

External collaborators (the x509/PEM parsers of the Go standard library, the
challenge-password parser of the SCEP library, YAML unmarshalling, file I/O)
are modelled as parameters or as already-parsed inputs; the logic of this
repository is translated statement by statement.
-/

namespace Scep2Acme

/-! ## Whitelist verifier (src/internal/whitelist/whitelist.go) -/

/-- HostnameMatcher is a function that checks if a hostname matches a pattern
(Go: `type HostnameMatcher func(hostname string) bool`). -/
def HostnameMatcher : Type := String → Bool

/-- CSRPasswordVerifier verifies CSRs based on a password-hostname mapping.
The Go field is `passwordMatchers map[string][]HostnameMatcher`; indexing a Go
map at an absent key yields the zero value (a nil slice), so the map is
modelled as a total function defaulting to `[]`. -/
structure CSRPasswordVerifier where
  passwordMatchers : String → List HostnameMatcher

/-- The names extracted from an incoming certificate signing request:
`csr.Subject.CommonName` and `csr.DNSNames` (the SANs). -/
structure CertificateRequest where
  commonName : String
  dnsNames : List String

/-- `allowedDNSName` checks if a DNS name is allowed for the given password:
it scans the password's matcher slice and returns true on the first hit. -/
def allowedDNSName (c : CSRPasswordVerifier) (password dnsName : String) : Bool :=
  (c.passwordMatchers password).any (fun matcher => matcher dnsName)

/-- The `for _, name := range csr.DNSNames` loop of `Verify`: returns
`(false, nil)` at the first SAN that is not allowed, `(true, nil)` when the
loop finishes.  `(b, nil)` is modelled as `Except.ok b`. -/
def checkSANs (c : CSRPasswordVerifier) (cp : String) : List String → Except String Bool
  | [] => Except.ok true
  | name :: rest =>
    if !(allowedDNSName c cp name) then Except.ok false
    else checkSANs c cp rest

/-- `Verify` of `CSRPasswordVerifier` (whitelist.go lines 33-59).  The two
external parsers — `x509util.ParseChallengePassword` and
`x509.ParseCertificateRequest`, both applied to the same raw `data` — are
passed as parameters; `(value, err)` returns are modelled as `Except`. -/
def Verify (c : CSRPasswordVerifier)
    (parseChallengePassword : α → Except String String)
    (parseCertificateRequest : α → Except String CertificateRequest)
    (data : α) : Except String Bool :=
  match parseChallengePassword data with
  | Except.error e =>
      Except.error ("scep: parse challenge password in pkiEnvelope: " ++ e)
  | Except.ok cp =>
    match parseCertificateRequest data with
    | Except.error e => Except.error e
    | Except.ok csr =>
      if !(allowedDNSName c cp csr.commonName) then Except.ok false
      else checkSANs c cp csr.dnsNames

/-- `hostnameExactMatcher` creates a matcher that checks for exact hostname
matches. -/
def hostnameExactMatcher (name : String) : HostnameMatcher :=
  fun hostname => name == hostname

/-- A YAML value as produced by `yaml.Unmarshal` into `map[string]interface{}`:
a string scalar, a list, or anything else (other scalars, maps, nil).  For the
"anything else" case the constructor carries the strings Go would print for it
— `fmt`'s `%v` rendering and `reflect.TypeOf`'s name — since only those reach
the output of the loader. -/
inductive YamlValue where
  | str : String → YamlValue
  | list : List YamlValue → YamlValue
  | other : String → String → YamlValue

mutual

/-- `%v` rendering of a YAML value (Go prints a `[]interface{}` as the
bracketed, space-separated rendering of its elements). -/
def renderYaml : YamlValue → String
  | YamlValue.str s => s
  | YamlValue.other r _ => r
  | YamlValue.list vs => "[" ++ renderYamlList vs ++ "]"

/-- Space-separated rendering of the elements of a YAML list. -/
def renderYamlList : List YamlValue → String
  | [] => ""
  | [v] => renderYaml v
  | v :: rest => renderYaml v ++ " " ++ renderYamlList rest

end

/-- `reflect.TypeOf` name of a YAML value. -/
def yamlTypeName : YamlValue → String
  | YamlValue.str _ => "string"
  | YamlValue.list _ => "[]interface \x7b\x7d"
  | YamlValue.other _ t => t

/-- `c.passwordMatchers[pass] = append(c.passwordMatchers[pass], m)`:
append one matcher to the slice registered for `pass`. -/
def addMatcher (f : String → List HostnameMatcher) (pass : String)
    (m : HostnameMatcher) : String → List HostnameMatcher :=
  fun p => if p == pass then f p ++ [m] else f p

/-- The `for _, item := range items` loop of `NewCSRPasswordVerifier`
(whitelist.go lines 92-99): a string item registers an exact matcher for
`pass`; any other item aborts with `unknown item: %v (type %v)`. -/
def addItems (pass : String) :
    List YamlValue → (String → List HostnameMatcher) →
    Except String (String → List HostnameMatcher)
  | [], f => Except.ok f
  | item :: rest, f =>
    match item with
    | YamlValue.str v =>
        addItems pass rest (addMatcher f pass (hostnameExactMatcher v))
    | YamlValue.list vs =>
        Except.error ("unknown item: " ++ renderYaml (YamlValue.list vs) ++
          " (type " ++ yamlTypeName (YamlValue.list vs) ++ ")")
    | YamlValue.other r t =>
        Except.error ("unknown item: " ++ r ++ " (type " ++ t ++ ")")

/-- The item list of one whitelist entry: `items := []interface{}{value}`
overridden to `value` itself when the value is a list (whitelist.go lines
86-90). -/
def valueItems : YamlValue → List YamlValue
  | YamlValue.list vs => vs
  | v => [v]

/-- The loader's error message for a rejected item:
`unknown item: %v (type %v)` rendered for that item. -/
def itemMessage (item : YamlValue) : String :=
  "unknown item: " ++ renderYaml item ++ " (type " ++ yamlTypeName item ++ ")"

/-- The `for pass, value := range mapping` loop of `NewCSRPasswordVerifier`
(whitelist.go lines 85-100).  A list value is iterated element-wise; any other
value is treated as the single item `[value]`.  Go map iteration order is
unspecified; the model iterates in association-list order (none of the proved
properties depends on the order). -/
def buildMapping :
    List (String × YamlValue) → (String → List HostnameMatcher) →
    Except String (String → List HostnameMatcher)
  | [], f => Except.ok f
  | (pass, value) :: rest, f =>
    match addItems pass (valueItems value) f with
    | Except.error e => Except.error e
    | Except.ok f2 => buildMapping rest f2

/-- `NewCSRPasswordVerifier` (whitelist.go lines 69-103), starting from the
already-unmarshalled YAML mapping (file reading and `yaml.Unmarshal` are
external; their failures happen before this logic runs). -/
def NewCSRPasswordVerifier (mapping : List (String × YamlValue)) :
    Except String CSRPasswordVerifier :=
  match buildMapping mapping (fun _ => []) with
  | Except.error e => Except.error e
  | Except.ok f => Except.ok ⟨f⟩

/-! ## Capability filter (ServiceWithoutRenewal.GetCACaps) -/

/-- Fuel-indexed worker for `replaceAll`.  The fuel argument only justifies
structural recursion (one unit per character position); initialised with the
length of the string it never reaches the fallback row, since every step
consumes at least one character and exactly one unit of fuel. -/
def replaceAllAux (pat rep : List Char) : Nat → List Char → List Char
  | _, [] => []
  | 0, s => s
  | fuel + 1, c :: rest =>
    if pat.isPrefixOf (c :: rest) then
      rep ++ replaceAllAux pat rep fuel (rest.drop (pat.length - 1))
    else
      c :: replaceAllAux pat rep fuel rest

/-- `strings.ReplaceAll s old new` for non-empty `old`: replaces every
non-overlapping occurrence of `pat` left to right.  Go strings are byte
slices; all strings involved here are ASCII, so they are modelled as
character lists. -/
def replaceAll (pat rep : List Char) (s : List Char) : List Char :=
  replaceAllAux pat rep s.length s

/-- The capability-list rewrite of `ServiceWithoutRenewal.GetCACaps`:
pad the advertised list with one space on each side, replace every
`"\nRenewal\n"` with `"\n"`, then strip the first and last byte
(`newCaps[1 : len(newCaps)-1]`). -/
def GetCACapsFilter (caps : List Char) : List Char :=
  let newCaps := replaceAll ("\nRenewal\n".toList) ("\n".toList)
    ([' '] ++ caps ++ [' '])
  (newCaps.drop 1).dropLast

/-! ## Depot (chain and key loaders)

`pem.Decode` scans raw bytes for the first well-formed PEM block and returns
it with the remaining bytes, or nil when none is found.  The byte-level
scanner is external; PEM-layer inputs are therefore modelled as the sequence
of well-formed blocks the bytes contain, so `pem.Decode` is "return the head
block and the tail, or nil on the empty sequence".  The DER payload of a
block is an opaque type `α`, and the external DER parsers
(`x509.ParseCertificate`, `x509.ParsePKCS1PrivateKey`,
`x509.ParsePKCS8PrivateKey`) are parameters. -/

/-- One PEM block: its type line (for a key file, Go inspects
`pemBlock.Type`) and its DER payload. -/
structure PemBlock (α : Type) where
  type : String
  bytes : α

/-- The accumulator loop of `Depot.loadCerts`: decode blocks until
`pem.Decode` returns nil; zero decoded blocks is `PEM decode failed`; a block
whose payload fails certificate parsing aborts with
`parsing cert <count-so-far>: <err>`. -/
def loadCertsAux (parseCertificate : α → Except String β) (acc : List β) :
    List (PemBlock α) → Except String (List β)
  | [] =>
    if acc.length = 0 then Except.error "PEM decode failed"
    else Except.ok acc
  | b :: rest =>
    match parseCertificate b.bytes with
    | Except.error e =>
        Except.error ("parsing cert " ++ toString acc.length ++ ": " ++ e)
    | Except.ok cert => loadCertsAux parseCertificate (acc ++ [cert]) rest

/-- `Depot.loadCerts` (certificates from PEM data), starting from the empty
`certs` slice. -/
def loadCerts (parseCertificate : α → Except String β)
    (blocks : List (PemBlock α)) : Except String (List β) :=
  loadCertsAux parseCertificate [] blocks

/-- Result of `x509.ParsePKCS8PrivateKey` followed by the Go type assertion
`ret.(*rsa.PrivateKey)`: either an RSA key, or a key of some other algorithm
(carried abstractly, since only the failed assertion is observable). -/
inductive PrivKey (κ : Type) where
  | rsa : κ → PrivKey κ
  | otherAlg : String → PrivKey κ

/-- `Depot.loadKey`: decode the first PEM block (nil ⇒ `PEM decode failed`);
a block typed `RSA PRIVATE KEY` goes to the PKCS#1 parser; any other block
goes to the PKCS#8 parser, whose result must assert to an RSA key, else
`key is not an RSA private key`. -/
def loadKey (parsePKCS1 : α → Except String κ)
    (parsePKCS8 : α → Except String (PrivKey κ)) :
    List (PemBlock α) → Except String κ
  | [] => Except.error "PEM decode failed"
  | b :: _ =>
    if b.type = "RSA PRIVATE KEY" then parsePKCS1 b.bytes
    else
      match parsePKCS8 b.bytes with
      | Except.error e => Except.error e
      | Except.ok (PrivKey.rsa k) => Except.ok k
      | Except.ok (PrivKey.otherAlg _) =>
          Except.error "key is not an RSA private key"

/-- An RSA private key as compared by the specification's P4: modulus and
exponents. -/
structure RSAKey where
  modulus : Nat
  publicExponent : Nat
  privateExponent : Nat
deriving DecidableEq

/-! ## ACME certificate source (src/internal/acme/acme.go) -/

/-- Outcome of a Go function call that can also crash: a nil-pointer
dereference (`panics`), an error return, or a value. -/
inductive GoResult (α : Type) where
  | panics : GoResult α
  | error : String → GoResult α
  | ok : α → GoResult α
deriving DecidableEq

/-- `Client.CertificateSource` (acme.go lines 99-118).  `ObtainForCSR` is the
external ACME client call, returning the PEM bytes of the obtained
certificate (modelled, like the Depot inputs, as the sequence of well-formed
PEM blocks those bytes contain); `parseCertificate` is the external
`x509.ParseCertificate`.  The code runs `certBytes, _ := pem.Decode(...)` and
dereferences `certBytes.Bytes` without a nil check, so a response with zero
PEM blocks is a nil-pointer dereference, not an error return. -/
def certificateSource (obtainForCSR : γ → Except String (List (PemBlock α)))
    (parseCertificate : α → Except String β) (csr : γ) : GoResult β :=
  match obtainForCSR csr with
  | Except.error e => GoResult.error ("ObtainForCSR: " ++ e)
  | Except.ok blocks =>
    match blocks with
    | [] => GoResult.panics
    | b :: _ =>
      match parseCertificate b.bytes with
      | Except.error e => GoResult.error ("parsing obtained cert: " ++ e)
      | Except.ok cert => GoResult.ok cert

/-! ## Auxiliary predicates and concrete instances used in the statements -/

/-- True when a Go `(value, err)` return modelled as `Except` is the error
case (a non-nil error). -/
def isHardError : Except String β → Bool
  | Except.error _ => true
  | Except.ok _ => false

/-- Whether a YAML item is a string scalar (the only item kind the whitelist
loader accepts). -/
def isStrItem : YamlValue → Bool
  | YamlValue.str _ => true
  | YamlValue.list _ => false
  | YamlValue.other _ _ => false

/-- A whitelist entry value that is neither a single hostname string nor a
list of hostname strings. -/
def badShapeValue (val : YamlValue) : Prop :=
  (∃ r t, val = YamlValue.other r t) ∨
  (∃ vs, val = YamlValue.list vs ∧ ∃ item ∈ vs, isStrItem item = false)

/-- A whitelist entry value guaranteed to register at least one matcher: a
single hostname string, or a non-empty list. -/
def goodShapeValue (val : YamlValue) : Prop :=
  (∃ h, val = YamlValue.str h) ∨ (∃ vs, val = YamlValue.list vs ∧ vs ≠ [])

/-- The verifier of the specification's scenario: whitelist
`testpass ↦ test.example.com`, as built by the loader. -/
def testVerifier : CSRPasswordVerifier :=
  ⟨addMatcher (fun _ => []) "testpass" (hostnameExactMatcher "test.example.com")⟩

/-! # Theorems -/

/-! ## Helper lemmas -/

/-- The scenario verifier registers exactly one matcher for `testpass`. -/
theorem testVerifier_matchers :
    testVerifier.passwordMatchers "testpass" =
      [hostnameExactMatcher "test.example.com"] := by
  simp [testVerifier, addMatcher]

/-- The SAN loop returns `ok` of the conjunction over all SANs. -/
theorem checkSANs_eq_all (c : CSRPasswordVerifier) (cp : String)
    (l : List String) :
    checkSANs c cp l = Except.ok (l.all (fun name => allowedDNSName c cp name)) := by
  induction l with
  | nil => rfl
  | cons name rest ih =>
    by_cases h : allowedDNSName c cp name
    · simp [checkSANs, h, ih]
    · simp [checkSANs, h]

/-- When both parsers succeed, `Verify` returns `ok` of the conjunction over
the CommonName and all SANs. -/
theorem verify_ok_eq (c : CSRPasswordVerifier)
    (pCP : α → Except String String)
    (pCSR : α → Except String CertificateRequest) (data : α)
    (cp : String) (csr : CertificateRequest)
    (hcp : pCP data = Except.ok cp) (hcsr : pCSR data = Except.ok csr) :
    Verify c pCP pCSR data =
      Except.ok (allowedDNSName c cp csr.commonName &&
        csr.dnsNames.all (fun name => allowedDNSName c cp name)) := by
  unfold Verify
  rw [hcp, hcsr]
  dsimp only
  rw [checkSANs_eq_all]
  by_cases h : allowedDNSName c cp csr.commonName <;> simp [h]

/-! ## C2 — capability filter -/

/-- C2 (code bug): the capability filter fails to remove `Renewal` when it is
the first token of the list.  The code pads the list with a space on each
side but replaces only the newline-delimited pattern `"\nRenewal\n"`, so a
leading (or trailing, or sole) `Renewal` token has no preceding (or
following) newline and survives the rewrite: on input `"Renewal\nAES"` the
filter returns the list unchanged, contradicting the claim that it removes
the token regardless of position — and contradicting the wrapper's own
documented purpose of advertising capabilities without renewal support. -/
theorem C2_renewal_first_token_survives :
    GetCACapsFilter ("Renewal\nAES".toList) = "Renewal\nAES".toList := by
  decide

/-! ## C4 — ACME certificate source -/

/-- C4 (code bug): on a CA response whose certificate bytes contain zero PEM
blocks, the certificate source dereferences the nil result of `pem.Decode`
(`certBytes.Bytes` with `certBytes == nil`) and panics instead of returning
an error, contradicting the claim that a zero-block response is an error
return and not a crash. -/
theorem C4_zero_pem_blocks_panic :
    certificateSource (fun (_ : Unit) => Except.ok ([] : List (PemBlock Unit)))
      (fun (_ : Unit) => Except.ok ()) () = GoResult.panics := rfl

/-! ## C3 — whitelist loader invariant -/

/-- C3 (counterexample): a source mapping the secret `"s"` to an empty list
is accepted by the loader (build succeeds), yet `"s"` ends up with zero
hostname rules — refuting the claim that every secret present in an accepted
source is mapped to at least one rule. -/
theorem C3_counterexample_empty_list :
    Except.map (fun v => (CSRPasswordVerifier.passwordMatchers v "s").length)
      (NewCSRPasswordVerifier [("s", YamlValue.list [])]) = Except.ok 0 := rfl

/-! ## C5 — loader error message -/

/-- C5 (counterexample): the loader's error for a malformed entry is
`unknown item: <value> (type <type>)` — it names the offending item, not the
secret: on the source mapping `"mysecret"` to the non-string scalar `42`
(type `int`), the error message does not contain the secret `"mysecret"`. -/
theorem C5_counterexample_secret_not_named :
    NewCSRPasswordVerifier [("mysecret", YamlValue.other "42" "int")] =
      Except.error "unknown item: 42 (type int)" ∧
    ¬ List.IsInfix ("mysecret".toList)
        ("unknown item: 42 (type int)".toList) := by
  refine ⟨rfl, ?_⟩
  decide

/-- All items of a list being string scalars, `addItems` succeeds. -/
theorem addItems_all_str (pass : String) :
    ∀ (items : List YamlValue) (f : String → List HostnameMatcher),
      (∀ it ∈ items, isStrItem it = true) →
      ∃ f2, addItems pass items f = Except.ok f2 := by
  intro items
  induction items with
  | nil =>
    intro f _
    exact ⟨f, rfl⟩
  | cons item rest ih =>
    intro f hall
    have h := hall item (List.mem_cons_self _ _)
    cases item with
    | str v =>
      exact ih (addMatcher f pass (hostnameExactMatcher v))
        (fun it hit => hall it (List.mem_cons_of_mem _ hit))
    | list vs => simp [isStrItem] at h
    | other r t => simp [isStrItem] at h

/-- `addItems` runs past any prefix of string items and aborts at the first
non-string item with exactly that item's message. -/
theorem addItems_first_bad (pass : String) (item : YamlValue)
    (hitem : isStrItem item = false) :
    ∀ (goodItems : List String) (restItems : List YamlValue)
      (f : String → List HostnameMatcher),
      addItems pass (goodItems.map YamlValue.str ++ item :: restItems) f =
        Except.error (itemMessage item) := by
  intro goodItems
  induction goodItems with
  | nil =>
    intro restItems f
    cases item with
    | str v => simp [isStrItem] at hitem
    | list vs => rfl
    | other r t => rfl
  | cons g gs ih =>
    intro restItems f
    exact ih restItems (addMatcher f pass (hostnameExactMatcher g))

/-- Unfolding equation of the entry loop at a cons cell. -/
theorem buildMapping_cons_eq (pass : String) (value : YamlValue)
    (rest : List (String × YamlValue)) (f : String → List HostnameMatcher) :
    buildMapping ((pass, value) :: rest) f =
      match addItems pass (valueItems value) f with
      | Except.error e => Except.error e
      | Except.ok f2 => buildMapping rest f2 := rfl

/-- `buildMapping` runs past any prefix of entries whose items are all
string scalars, continuing on the remaining entries from some accumulated
table. -/
theorem buildMapping_pre_ok :
    ∀ (pre : List (String × YamlValue)),
      (∀ e ∈ pre, ∀ it ∈ valueItems e.2, isStrItem it = true) →
      ∀ (f : String → List HostnameMatcher) (tail : List (String × YamlValue)),
        ∃ f2, buildMapping (pre ++ tail) f = buildMapping tail f2 := by
  intro pre
  induction pre with
  | nil =>
    intro _ f tail
    exact ⟨f, rfl⟩
  | cons e pres ih =>
    intro hpre f tail
    obtain ⟨pass, value⟩ := e
    obtain ⟨f1, hf1⟩ := addItems_all_str pass (valueItems value) f
      (hpre (pass, value) (List.mem_cons_self _ _))
    rw [List.cons_append, buildMapping_cons_eq, hf1]
    exact ih (fun x hx => hpre x (List.mem_cons_of_mem _ hx)) f1 tail

/-- C5 (amended): for every whitelist source containing an entry whose value
— or a list element of it — is not a hostname string, at any position after
well-formed entries, building the verifier fails with the error
`unknown item: <value> (type <type>)`, naming the rendered value and dynamic
type of the first offending item (not the offending secret). -/
theorem C5_amended_error_names_item (pre post : List (String × YamlValue))
    (s : String) (val : YamlValue) (goodItems : List String)
    (item : YamlValue) (restItems : List YamlValue)
    (hpre : ∀ e ∈ pre, ∀ it ∈ valueItems e.2, isStrItem it = true)
    (hitem : isStrItem item = false)
    (hval : valueItems val = goodItems.map YamlValue.str ++ item :: restItems) :
    NewCSRPasswordVerifier (pre ++ (s, val) :: post) =
      Except.error (itemMessage item) := by
  obtain ⟨f2, hf2⟩ := buildMapping_pre_ok pre hpre (fun _ => [])
    ((s, val) :: post)
  unfold NewCSRPasswordVerifier
  rw [hf2, buildMapping_cons_eq, hval,
    addItems_first_bad s item hitem goodItems restItems f2]

/-- C5 (amended) witness: a source whose second entry holds a list with one
good hostname followed by the non-string scalar `42` fails with the message
for that scalar, at concrete inputs. -/
theorem C5_amended_error_names_item_witness :
    NewCSRPasswordVerifier
      [("good", YamlValue.str "a.example.com"),
       ("mysecret", YamlValue.list
         [YamlValue.str "b.example.com", YamlValue.other "42" "int"])] =
      Except.error "unknown item: 42 (type int)" :=
  C5_amended_error_names_item [("good", YamlValue.str "a.example.com")] []
    "mysecret"
    (YamlValue.list [YamlValue.str "b.example.com", YamlValue.other "42" "int"])
    ["b.example.com"] (YamlValue.other "42" "int") []
    (by decide) rfl rfl

/-! ## C1 — conjunctive authorization -/

/-- C1: when the challenge password and the CSR both parse, `Verify` returns
`allowed = true` iff the password has at least one registered hostname rule
and every name among the CommonName and the SANs matches at least one rule
registered for that password; moreover a password with no registered rules
rejects the request, and a single disallowed SAN rejects the request
regardless of the other names. -/
theorem C1_verify_conjunctive (c : CSRPasswordVerifier)
    (pCP : α → Except String String)
    (pCSR : α → Except String CertificateRequest) (data : α)
    (cp : String) (csr : CertificateRequest)
    (hcp : pCP data = Except.ok cp) (hcsr : pCSR data = Except.ok csr) :
    (Verify c pCP pCSR data = Except.ok true ↔
      (c.passwordMatchers cp ≠ [] ∧
       ∀ name ∈ csr.commonName :: csr.dnsNames,
         ∃ m ∈ c.passwordMatchers cp, m name = true)) ∧
    (c.passwordMatchers cp = [] → Verify c pCP pCSR data = Except.ok false) ∧
    (∀ name ∈ csr.dnsNames, allowedDNSName c cp name = false →
       Verify c pCP pCSR data = Except.ok false) := by
  have hV := verify_ok_eq c pCP pCSR data cp csr hcp hcsr
  have hA : ∀ name, allowedDNSName c cp name = true ↔
      ∃ m ∈ c.passwordMatchers cp, m name = true := by
    intro name
    simp [allowedDNSName, List.any_eq_true]
  refine ⟨?_, ?_, ?_⟩
  · rw [hV]
    simp only [Except.ok.injEq, Bool.and_eq_true, List.all_eq_true]
    constructor
    · intro ⟨hcn, hsans⟩
      obtain ⟨m, hm, hmv⟩ := (hA csr.commonName).mp hcn
      refine ⟨?_, ?_⟩
      · intro hnil
        rw [hnil] at hm
        exact absurd hm (List.not_mem_nil m)
      · intro name hname
        rcases List.mem_cons.mp hname with h1 | h2
        · rw [h1]; exact ⟨m, hm, hmv⟩
        · exact (hA name).mp (hsans name h2)
    · intro ⟨_, hall⟩
      refine ⟨?_, ?_⟩
      · exact (hA csr.commonName).mpr (hall csr.commonName (List.mem_cons_self _ _))
      · intro name hname
        exact (hA name).mpr (hall name (List.mem_cons_of_mem _ hname))
  · intro hnil
    rw [hV]
    have : allowedDNSName c cp csr.commonName = false := by
      simp [allowedDNSName, hnil]
    rw [this, Bool.false_and]
  · intro name hname hno
    rw [hV]
    have : csr.dnsNames.all (fun n => allowedDNSName c cp n) = false := by
      rcases hall : csr.dnsNames.all (fun n => allowedDNSName c cp n) with _ | _
      · rfl
      · have := List.all_eq_true.mp hall name hname
        rw [hno] at this
        exact absurd this (by simp)
    rw [this, Bool.and_false]

/-- C1 witness: on the scenario whitelist `testpass ↦ test.example.com`, a
request with CN `test.example.com` and no SANs is allowed, via the
characterization at concrete inputs. -/
theorem C1_verify_conjunctive_witness :
    Verify testVerifier (fun (_ : Unit) => Except.ok "testpass")
      (fun _ => Except.ok ⟨"test.example.com", []⟩) () = Except.ok true := by
  refine (C1_verify_conjunctive testVerifier _ _ () "testpass"
    ⟨"test.example.com", []⟩ rfl rfl).1.mpr ⟨?_, ?_⟩
  · rw [testVerifier_matchers]
    exact List.cons_ne_nil _ _
  · intro name hname
    rcases List.mem_cons.mp hname with h1 | h2
    · refine ⟨hostnameExactMatcher "test.example.com", ?_, ?_⟩
      · rw [testVerifier_matchers]
        exact List.mem_singleton_self _
      · rw [h1]
        rfl
    · exact absurd h2 (List.not_mem_nil name)

/-! ## C8 — error versus rejection -/

/-- C8: `Verify` distinguishes hard errors from rejections: a failing
challenge-password parse or CSR parse yields an error return, while a
well-formed request containing a name not covered by the password's rules
yields `allowed = false` with a nil error. -/
theorem C8_error_vs_reject (c : CSRPasswordVerifier)
    (pCP : α → Except String String)
    (pCSR : α → Except String CertificateRequest) (data : α) :
    (∀ e, pCP data = Except.error e →
       isHardError (Verify c pCP pCSR data) = true) ∧
    (∀ cp e, pCP data = Except.ok cp → pCSR data = Except.error e →
       isHardError (Verify c pCP pCSR data) = true) ∧
    (∀ cp csr name, pCP data = Except.ok cp → pCSR data = Except.ok csr →
       name ∈ csr.commonName :: csr.dnsNames →
       allowedDNSName c cp name = false →
       Verify c pCP pCSR data = Except.ok false) := by
  refine ⟨?_, ?_, ?_⟩
  · intro e he
    unfold Verify
    rw [he]
    rfl
  · intro cp e hcp hcsr
    unfold Verify
    rw [hcp, hcsr]
    rfl
  · intro cp csr name hcp hcsr hname hno
    rw [verify_ok_eq c pCP pCSR data cp csr hcp hcsr]
    rcases List.mem_cons.mp hname with h1 | h2
    · rw [h1] at hno
      rw [hno, Bool.false_and]
    · have : csr.dnsNames.all (fun n => allowedDNSName c cp n) = false := by
        rcases hall : csr.dnsNames.all (fun n => allowedDNSName c cp n) with _ | _
        · rfl
        · have := List.all_eq_true.mp hall name h2
          rw [hno] at this
          exact absurd this (by simp)
      rw [this, Bool.and_false]

/-- C8 witness: a failing envelope parse and a failing CSR parse each give a
hard error, and a well-formed request for a non-whitelisted name gives
`allowed = false` with a nil error, at concrete inputs. -/
theorem C8_error_vs_reject_witness :
    isHardError (Verify testVerifier (fun (_ : Unit) => Except.error "bad envelope")
      (fun _ => Except.ok ⟨"test.example.com", []⟩) ()) = true ∧
    isHardError (Verify testVerifier (fun (_ : Unit) => Except.ok "testpass")
      (fun _ => Except.error "bad csr") ()) = true ∧
    Verify testVerifier (fun (_ : Unit) => Except.ok "testpass")
      (fun _ => Except.ok ⟨"other.example.com", []⟩) () = Except.ok false :=
  ⟨(C8_error_vs_reject testVerifier _ _ ()).1 "bad envelope" rfl,
   (C8_error_vs_reject testVerifier _ _ ()).2.1 "testpass" "bad csr" rfl rfl,
   (C8_error_vs_reject testVerifier _ _ ()).2.2 "testpass"
     ⟨"other.example.com", []⟩ "other.example.com" rfl rfl
     (List.mem_cons_self _ _) (by decide)⟩

/-! ## C10 — empty CommonName is still checked -/

/-- C10: `Verify` evaluates the CommonName against the password's rules even
when it is the empty string: if the password's rules do not match `""`, a CSR
with an empty CommonName is rejected regardless of its SANs. -/
theorem C10_empty_cn_rejected (c : CSRPasswordVerifier)
    (pCP : α → Except String String)
    (pCSR : α → Except String CertificateRequest) (data : α)
    (cp : String) (csr : CertificateRequest)
    (hcp : pCP data = Except.ok cp) (hcsr : pCSR data = Except.ok csr)
    (hcn : csr.commonName = "") (hno : allowedDNSName c cp "" = false) :
    Verify c pCP pCSR data = Except.ok false := by
  rw [verify_ok_eq c pCP pCSR data cp csr hcp hcsr, hcn, hno, Bool.false_and]

/-- C10 witness: on the scenario whitelist, a CSR with empty CommonName and a
fully whitelisted SAN is rejected. -/
theorem C10_empty_cn_rejected_witness :
    Verify testVerifier (fun (_ : Unit) => Except.ok "testpass")
      (fun _ => Except.ok ⟨"", ["test.example.com"]⟩) () = Except.ok false :=
  C10_empty_cn_rejected testVerifier _ _ () "testpass"
    ⟨"", ["test.example.com"]⟩ rfl rfl rfl (by decide)

/-! ## C3 — loader invariant (helper lemmas) -/

/-- `addMatcher` never shrinks a password's matcher slice. -/
theorem addMatcher_le (f : String → List HostnameMatcher) (pass p : String)
    (m : HostnameMatcher) :
    (f p).length ≤ (addMatcher f pass m p).length := by
  unfold addMatcher
  by_cases h : p == pass
  · simp [h]
  · simp [h]

/-- A successful `addItems` run never shrinks any password's matcher slice. -/
theorem addItems_le (pass p : String) :
    ∀ (items : List YamlValue) (f f2 : String → List HostnameMatcher),
      addItems pass items f = Except.ok f2 → (f p).length ≤ (f2 p).length := by
  intro items
  induction items with
  | nil =>
    intro f f2 h
    injection h with h
    rw [h]
  | cons item rest ih =>
    intro f f2 h
    match item with
    | YamlValue.str v =>
      have step := addMatcher_le f pass p (hostnameExactMatcher v)
      exact le_trans step (ih _ f2 h)
    | YamlValue.list vs => exact absurd h (by simp [addItems])
    | YamlValue.other r t => exact absurd h (by simp [addItems])

/-- A successful `addItems` run over a non-empty item list grows the slice of
its own password by at least one. -/
theorem addItems_cons_grows (pass : String) (item : YamlValue)
    (rest : List YamlValue) (f f2 : String → List HostnameMatcher)
    (h : addItems pass (item :: rest) f = Except.ok f2) :
    (f pass).length + 1 ≤ (f2 pass).length := by
  match item with
  | YamlValue.str v =>
    have hrest : addItems pass rest (addMatcher f pass (hostnameExactMatcher v)) =
        Except.ok f2 := h
    have step : (addMatcher f pass (hostnameExactMatcher v) pass).length =
        (f pass).length + 1 := by
      simp [addMatcher]
    have := addItems_le pass pass rest _ f2 hrest
    omega
  | YamlValue.list vs => exact absurd h (by simp [addItems])
  | YamlValue.other r t => exact absurd h (by simp [addItems])

/-- A successful `buildMapping` run never shrinks any password's matcher
slice. -/
theorem buildMapping_le (p : String) :
    ∀ (l : List (String × YamlValue)) (f g : String → List HostnameMatcher),
      buildMapping l f = Except.ok g → (f p).length ≤ (g p).length := by
  intro l
  induction l with
  | nil =>
    intro f g h
    injection h with h
    rw [h]
  | cons entry rest ih =>
    intro f g h
    obtain ⟨pass, value⟩ := entry
    unfold buildMapping at h
    rcases ha : addItems pass (valueItems value) f with e | f2
    · rw [ha] at h
      exact absurd h (by simp)
    · rw [ha] at h
      exact le_trans (addItems_le pass p _ f f2 ha) (ih f2 g h)

/-- If some item in the list is not a string scalar, `addItems` fails. -/
theorem addItems_bad_fails (pass : String) :
    ∀ (items : List YamlValue) (f : String → List HostnameMatcher),
      (∃ item ∈ items, isStrItem item = false) →
      isHardError (addItems pass items f) = true := by
  intro items
  induction items with
  | nil =>
    intro f h
    obtain ⟨item, hmem, _⟩ := h
    exact absurd hmem (List.not_mem_nil item)
  | cons item rest ih =>
    intro f h
    match item with
    | YamlValue.str v =>
      obtain ⟨bad, hmem, hbad⟩ := h
      rcases List.mem_cons.mp hmem with h1 | h2
      · rw [h1] at hbad
        exact absurd hbad (by simp [isStrItem])
      · exact ih _ ⟨bad, h2, hbad⟩
    | YamlValue.list vs => rfl
    | YamlValue.other r t => rfl

/-- If some entry of the source has a bad value shape, `buildMapping`
fails. -/
theorem buildMapping_bad_fails (s : String) (val : YamlValue) :
    ∀ (l : List (String × YamlValue)) (f : String → List HostnameMatcher),
      (s, val) ∈ l → badShapeValue val →
      isHardError (buildMapping l f) = true := by
  intro l
  induction l with
  | nil =>
    intro f hmem _
    exact absurd hmem (List.not_mem_nil _)
  | cons entry rest ih =>
    intro f hmem hbad
    obtain ⟨pass, value⟩ := entry
    unfold buildMapping
    rcases ha : addItems pass (valueItems value) f with e | f2
    · rfl
    · rcases List.mem_cons.mp hmem with h1 | h2
      · exfalso
        injection h1 with hs hv
        subst hv
        have hfail : isHardError (addItems pass (valueItems val) f) = true := by
          rcases hbad with ⟨r, t, hval⟩ | ⟨vs, hval, hitem⟩
          · subst hval
            exact addItems_bad_fails pass _ f
              ⟨YamlValue.other r t, List.mem_singleton_self _, rfl⟩
          · subst hval
            exact addItems_bad_fails pass _ f hitem
        rw [ha] at hfail
        exact absurd hfail (by simp [isHardError])
      · exact ih f2 h2 hbad

/-- C3 (amended): for every source accepted by the loader, every secret whose
entry is a single hostname string or a non-empty list is mapped to at least
one hostname rule; an entry whose value is neither a string nor a list (or a
list containing a non-string element) makes the build fail with an error.  A
secret mapped to an empty list, however, is accepted with zero rules. -/
theorem C3_loader_invariant :
    (∀ (mapping : List (String × YamlValue)) (v : CSRPasswordVerifier)
       (s : String) (val : YamlValue),
       NewCSRPasswordVerifier mapping = Except.ok v →
       (s, val) ∈ mapping → goodShapeValue val →
       1 ≤ (v.passwordMatchers s).length) ∧
    (∀ (mapping : List (String × YamlValue)) (s : String) (val : YamlValue),
       (s, val) ∈ mapping → badShapeValue val →
       isHardError (NewCSRPasswordVerifier mapping) = true) := by
  have hgood : ∀ (l : List (String × YamlValue))
      (f g : String → List HostnameMatcher) (s : String) (val : YamlValue),
      buildMapping l f = Except.ok g → (s, val) ∈ l → goodShapeValue val →
      (f s).length + 1 ≤ (g s).length := by
    intro l
    induction l with
    | nil =>
      intro f g s val _ hmem _
      exact absurd hmem (List.not_mem_nil _)
    | cons entry rest ih =>
      intro f g s val h hmem hshape
      obtain ⟨pass, value⟩ := entry
      unfold buildMapping at h
      rcases ha : addItems pass (valueItems value) f with e | f2
      · rw [ha] at h
        exact absurd h (by simp)
      · rw [ha] at h
        rcases List.mem_cons.mp hmem with h1 | h2
        · injection h1 with hs hv
          subst hs
          subst hv
          have hcons : ∃ item irest, valueItems val = item :: irest := by
            rcases hshape with ⟨hn, hval⟩ | ⟨vs, hval, hne⟩
            · subst hval
              exact ⟨YamlValue.str hn, [], rfl⟩
            · subst hval
              match vs, hne with
              | item :: irest, _ => exact ⟨item, irest, rfl⟩
          obtain ⟨item, irest, hitems⟩ := hcons
          rw [hitems] at ha
          have hgrow := addItems_cons_grows s item irest f f2 ha
          have hrest := buildMapping_le s rest f2 g h
          omega
        · have hle := addItems_le pass s (valueItems value) f f2 ha
          have := ih f2 g s val h h2 hshape
          omega
  constructor
  · intro mapping v s val hok hmem hshape
    unfold NewCSRPasswordVerifier at hok
    rcases hb : buildMapping mapping (fun _ => []) with e | g
    · rw [hb] at hok
      exact absurd hok (by simp)
    · rw [hb] at hok
      injection hok with hok
      have := hgood mapping (fun _ => []) g s val hb hmem hshape
      rw [← hok]
      simpa using this
  · intro mapping s val hmem hbad
    unfold NewCSRPasswordVerifier
    rcases hb : buildMapping mapping (fun _ => []) with e | g
    · rfl
    · have := buildMapping_bad_fails s val mapping (fun _ => []) hmem hbad
      rw [hb] at this
      exact absurd this (by simp [isHardError])

/-- C3 (amended) witness: the scenario source `testpass ↦ test.example.com`
builds `testVerifier`, whose `testpass` entry holds one rule; a source whose
entry value is the non-string scalar `42` fails to build. -/
theorem C3_loader_invariant_witness :
    1 ≤ (testVerifier.passwordMatchers "testpass").length ∧
    isHardError (NewCSRPasswordVerifier
      [("p2", YamlValue.other "42" "int")]) = true :=
  ⟨C3_loader_invariant.1 [("testpass", YamlValue.str "test.example.com")]
     testVerifier "testpass" (YamlValue.str "test.example.com") rfl
     (List.mem_singleton_self _) (Or.inl ⟨"test.example.com", rfl⟩),
   C3_loader_invariant.2 [("p2", YamlValue.other "42" "int")] "p2"
     (YamlValue.other "42" "int") (List.mem_singleton_self _)
     (Or.inl ⟨"42", "int", rfl⟩)⟩

/-! ## C6 — chain loader (helper lemmas) -/

/-- The accumulator loop of `loadCerts` on all-parsable blocks appends their
parses in order, provided something non-empty is in play. -/
theorem loadCertsAux_ok (parse : α → Except String β) (pf : PemBlock α → β) :
    ∀ (blocks : List (PemBlock α)) (acc : List β),
      (∀ b ∈ blocks, parse b.bytes = Except.ok (pf b)) →
      acc ≠ [] ∨ blocks ≠ [] →
      loadCertsAux parse acc blocks = Except.ok (acc ++ blocks.map pf) := by
  intro blocks
  induction blocks with
  | nil =>
    intro acc _ hne
    have hacc : acc ≠ [] := by
      rcases hne with h | h
      · exact h
      · exact absurd rfl h
    unfold loadCertsAux
    rw [if_neg (by simpa [List.length_eq_zero] using hacc)]
    simp
  | cons b rest ih =>
    intro acc hparse _
    unfold loadCertsAux
    rw [hparse b (List.mem_cons_self _ _)]
    dsimp only
    rw [ih (acc ++ [pf b]) (fun x hx => hparse x (List.mem_cons_of_mem _ hx))
      (Or.inl (by simp))]
    simp

/-- Unfolding equation of the loop body at a cons cell. -/
theorem loadCertsAux_cons (parse : α → Except String β) (acc : List β)
    (b : PemBlock α) (rest : List (PemBlock α)) :
    loadCertsAux parse acc (b :: rest) =
      match parse b.bytes with
      | Except.error e =>
          Except.error ("parsing cert " ++ toString acc.length ++ ": " ++ e)
      | Except.ok cert => loadCertsAux parse (acc ++ [cert]) rest := rfl

/-- The accumulator loop of `loadCerts` aborts at the first unparsable block,
reporting the number of certificates decoded before it. -/
theorem loadCertsAux_err (parse : α → Except String β) (pf : PemBlock α → β) :
    ∀ (good : List (PemBlock α)) (acc : List β) (bad : PemBlock α)
      (rest : List (PemBlock α)) (e : String),
      (∀ b ∈ good, parse b.bytes = Except.ok (pf b)) →
      parse bad.bytes = Except.error e →
      loadCertsAux parse acc (good ++ bad :: rest) =
        Except.error ("parsing cert " ++ toString (acc.length + good.length) ++
          ": " ++ e) := by
  intro good
  induction good with
  | nil =>
    intro acc bad rest e _ hbad
    rw [List.nil_append, loadCertsAux_cons, hbad]
    simp
  | cons g gs ih =>
    intro acc bad rest e hgood hbad
    rw [List.cons_append, loadCertsAux_cons, hgood g (List.mem_cons_self _ _)]
    show loadCertsAux parse (acc ++ [pf g]) (gs ++ bad :: rest) = _
    rw [ih (acc ++ [pf g]) bad rest e
      (fun x hx => hgood x (List.mem_cons_of_mem _ hx)) hbad]
    have hlen : (acc ++ [pf g]).length + gs.length =
        acc.length + (g :: gs).length := by
      simp only [List.length_append, List.length_cons, List.length_nil]
      omega
    rw [hlen]

/-- C6: for a chain of N ≥ 1 PEM blocks that all parse as certificates, the
Depot's chain loader decodes exactly the N parses in block order; an input
with zero PEM blocks is the error `PEM decode failed`; and a chain whose
first failing block comes after `k` parsable blocks is the error
`parsing cert k: ...`, naming the failing block's position. -/
theorem C6_chain_roundtrip (parse : α → Except String β) (pf : PemBlock α → β) :
    (∀ blocks : List (PemBlock α), blocks ≠ [] →
       (∀ b ∈ blocks, parse b.bytes = Except.ok (pf b)) →
       loadCerts parse blocks = Except.ok (blocks.map pf)) ∧
    loadCerts parse ([] : List (PemBlock α)) = Except.error "PEM decode failed" ∧
    (∀ (good : List (PemBlock α)) (bad : PemBlock α)
       (rest : List (PemBlock α)) (e : String),
       (∀ b ∈ good, parse b.bytes = Except.ok (pf b)) →
       parse bad.bytes = Except.error e →
       loadCerts parse (good ++ bad :: rest) =
         Except.error ("parsing cert " ++ toString good.length ++ ": " ++ e)) := by
  refine ⟨?_, rfl, ?_⟩
  · intro blocks hne hparse
    unfold loadCerts
    rw [loadCertsAux_ok parse pf blocks [] hparse (Or.inr hne)]
    simp
  · intro good bad rest e hgood hbad
    unfold loadCerts
    rw [loadCertsAux_err parse pf good [] bad rest e hgood hbad]
    simp

/-- C6 witness: with a parser that accepts payloads below 100, a two-block
chain decodes to its two parses in order, the empty chain is the
`PEM decode failed` error, and a chain whose second block is unparsable is
the error `parsing cert 1: bad cert`. -/
theorem C6_chain_roundtrip_witness :
    loadCerts (fun n => if n < 100 then Except.ok (n + 1)
        else Except.error "bad cert")
      [PemBlock.mk "CERTIFICATE" 1, PemBlock.mk "CERTIFICATE" 2] =
      Except.ok [2, 3] ∧
    loadCerts (fun n => if n < 100 then Except.ok (n + 1)
        else Except.error "bad cert") ([] : List (PemBlock Nat)) =
      Except.error "PEM decode failed" ∧
    loadCerts (fun n => if n < 100 then Except.ok (n + 1)
        else Except.error "bad cert")
      [PemBlock.mk "CERTIFICATE" 1, PemBlock.mk "CERTIFICATE" 100] =
      Except.error "parsing cert 1: bad cert" := by
  have h := C6_chain_roundtrip
    (fun n => if n < 100 then Except.ok (n + 1) else Except.error "bad cert")
    (fun b => b.bytes + 1)
  refine ⟨?_, h.2.1, ?_⟩
  · have := h.1 [PemBlock.mk "CERTIFICATE" 1, PemBlock.mk "CERTIFICATE" 2]
      (by simp) ?_
    · simpa using this
    · intro b hb
      fin_cases hb <;> rfl
  · have := h.2.2 [PemBlock.mk "CERTIFICATE" 1] (PemBlock.mk "CERTIFICATE" 100)
      [] "bad cert" ?_ rfl
    · simpa using this
    · intro b hb
      fin_cases hb
      rfl

/-! ## C7 — key loader -/

/-- C7: the Depot's key loader decodes a block typed `RSA PRIVATE KEY` with
the PKCS#1 parser and any other first block with the PKCS#8 parser, so the
two encodings of one RSA key decode to that same key (identical modulus and
exponents); a PKCS#8-wrapped key of a non-RSA algorithm is the error
`key is not an RSA private key`; and only the first PEM block of the key
file is ever considered. -/
theorem C7_key_format_equivalence (parsePKCS1 : α → Except String RSAKey)
    (parsePKCS8 : α → Except String (PrivKey RSAKey)) :
    (∀ (k : RSAKey) (b1 b8 : PemBlock α) (rest1 rest8 : List (PemBlock α)),
       b1.type = "RSA PRIVATE KEY" →
       parsePKCS1 b1.bytes = Except.ok k →
       b8.type ≠ "RSA PRIVATE KEY" →
       parsePKCS8 b8.bytes = Except.ok (PrivKey.rsa k) →
       loadKey parsePKCS1 parsePKCS8 (b1 :: rest1) = Except.ok k ∧
       loadKey parsePKCS1 parsePKCS8 (b8 :: rest8) = Except.ok k) ∧
    (∀ (b : PemBlock α) (rest : List (PemBlock α)) (alg : String),
       b.type ≠ "RSA PRIVATE KEY" →
       parsePKCS8 b.bytes = Except.ok (PrivKey.otherAlg alg) →
       loadKey parsePKCS1 parsePKCS8 (b :: rest) =
         Except.error "key is not an RSA private key") ∧
    (∀ (b : PemBlock α) (rest rest2 : List (PemBlock α)),
       loadKey parsePKCS1 parsePKCS8 (b :: rest) =
         loadKey parsePKCS1 parsePKCS8 (b :: rest2)) := by
  refine ⟨?_, ?_, ?_⟩
  · intro k b1 b8 rest1 rest8 ht1 hp1 ht8 hp8
    constructor
    · unfold loadKey
      dsimp only
      rw [if_pos ht1, hp1]
    · unfold loadKey
      dsimp only
      rw [if_neg ht8, hp8]
  · intro b rest alg ht hp
    unfold loadKey
    dsimp only
    rw [if_neg ht, hp]
  · intro b rest rest2
    unfold loadKey
    rfl

/-- C7 witness: a key with modulus 3233 and exponents 17 and 413 loads
identically from a PKCS#1-typed block and from a PKCS#8-typed block, and a
PKCS#8-wrapped Ed25519 key is rejected, at concrete parsers. -/
theorem C7_key_format_equivalence_witness :
    loadKey (fun (_ : Unit) => Except.ok (RSAKey.mk 3233 17 413))
      (fun _ => Except.ok (PrivKey.rsa (RSAKey.mk 3233 17 413)))
      [PemBlock.mk "RSA PRIVATE KEY" ()] = Except.ok (RSAKey.mk 3233 17 413) ∧
    loadKey (fun (_ : Unit) => Except.ok (RSAKey.mk 3233 17 413))
      (fun _ => Except.ok (PrivKey.rsa (RSAKey.mk 3233 17 413)))
      [PemBlock.mk "PRIVATE KEY" ()] = Except.ok (RSAKey.mk 3233 17 413) ∧
    loadKey (fun (_ : Unit) => Except.ok (RSAKey.mk 3233 17 413))
      (fun _ => Except.ok (PrivKey.otherAlg "ed25519"))
      [PemBlock.mk "PRIVATE KEY" ()] =
      Except.error "key is not an RSA private key" := by
  have h1 := (C7_key_format_equivalence
    (fun (_ : Unit) => Except.ok (RSAKey.mk 3233 17 413))
    (fun _ => Except.ok (PrivKey.rsa (RSAKey.mk 3233 17 413)))).1
    (RSAKey.mk 3233 17 413) (PemBlock.mk "RSA PRIVATE KEY" ())
    (PemBlock.mk "PRIVATE KEY" ()) [] [] rfl rfl (by decide) rfl
  have h2 := (C7_key_format_equivalence
    (fun (_ : Unit) => Except.ok (RSAKey.mk 3233 17 413))
    (fun _ => Except.ok (PrivKey.otherAlg "ed25519"))).2.1
    (PemBlock.mk "PRIVATE KEY" ()) [] "ed25519" (by decide) rfl
  exact ⟨h1.1, h1.2, h2⟩

end Scep2Acme
